import Mathlib

/-!
Verification of `src/etl/getdata_apps.py` (fdroid-metrics).

The Python module downloads monthly app-metrics JSON files from a fixed
list of HTTP servers.  We give a shallow embedding of its functions:

* `filter_files_for_month` is embedded as a pure function on lists of
  strings, with `datetime.strptime(s, "%Y-%m-%d")` embedded as
  `strptimeYmd` and Python's `str.replace(".json", "")` embedded as
  `stripAllJson` (which removes every non-overlapping occurrence,
  left to right).
* The effectful functions (`fetch_index`, `download_file`,
  `download_month_data`) are embedded as state-passing functions over a
  `World` record holding the file system, the directory set, an HTTP
  oracle, and a write-permission oracle.  A propagated Python exception
  is an `Except.error`; exceptions the code catches are folded into the
  ordinary return value, exactly as the `try/except` blocks do.
-/

namespace FdroidMetrics

/-! Calendar dates, as validated by `datetime`. -/

/-- A calendar date as produced by `datetime.strptime` (year, month, day). -/
structure Date where
  year : Nat
  month : Nat
  day : Nat
deriving DecidableEq, Repr

/-- Gregorian leap-year rule used by `datetime`. -/
def isLeapYear (y : Nat) : Bool :=
  (y % 4 == 0 && y % 100 != 0) || y % 400 == 0

/-- Number of days of month `m` in year `y`. -/
def daysInMonth (y m : Nat) : Nat :=
  if m = 2 then (if isLeapYear y then 29 else 28)
  else if m = 4 ∨ m = 6 ∨ m = 9 ∨ m = 11 then 30
  else 31

/-- The `(y, m, d)` triples that `datetime(year=y, month=m, day=d)` accepts:
`MINYEAR ≤ y ≤ MAXYEAR`, valid month, and a day that exists in that month. -/
def validYMD (y m d : Nat) : Bool :=
  1 ≤ y && y ≤ 9999 && 1 ≤ m && m ≤ 12 && 1 ≤ d && d ≤ daysInMonth y m

/-- Numeric value of an ASCII digit character. -/
def digitVal (c : Char) : Nat := c.toNat - 48

/-- Value of a big-endian string of decimal digits. -/
def natOfDigits (cs : List Char) : Nat :=
  cs.foldl (fun acc c => acc * 10 + digitVal c) 0

/-- Shallow embedding of `datetime.strptime(s, "%Y-%m-%d")`, returning
`none` where Python raises `ValueError`.  CPython compiles the format to
the regex `\d\d\d\d - (1[0-2]|0[1-9]|[1-9]) - (3[01]|[12]\d|0[1-9]|[1-9]| [1-9])`
anchored at both ends (the day field of `%d` also accepts a space-padded
single digit ` [1-9]`, and `int(" 5") == 5`), then validates the day
against the month via the `datetime` constructor.  Because the year
field is followed by `-`, the month field by `-`, and the day field by
the end of the string, the regex succeeds exactly when the year's
maximal digit run has length 4, the month's has length 1–2, and the rest
is either a digit run of length 1–2 or a space followed by one nonzero
digit, with the resulting numbers forming a valid date. -/
def strptimeYmd (cs : List Char) : Option Date :=
  let p := cs.span Char.isDigit
  if p.1.length = 4 then
    match p.2 with
    | '-' :: r2 =>
      let q := r2.span Char.isDigit
      if q.1.length = 1 ∨ q.1.length = 2 then
        match q.2 with
        | '-' :: r4 =>
          let t := r4.span Char.isDigit
          let dayNum : Option Nat :=
            if (t.1.length = 1 ∨ t.1.length = 2) ∧ t.2 = [] then some (natOfDigits t.1)
            else
              match r4 with
              | [' ', c] => if c.isDigit ∧ c ≠ '0' then some (digitVal c) else none
              | _ => none
          match dayNum with
          | some dd =>
            if validYMD (natOfDigits p.1) (natOfDigits q.1) dd then
              some ⟨natOfDigits p.1, natOfDigits q.1, dd⟩
            else none
          | none => none
        | _ => none
      else none
    | _ => none
  else none

/-- Embedding of Python's `s.replace(".json", "")`: scan left to right,
removing every (non-overlapping) occurrence of `.json`. -/
def stripAllJson : List Char → List Char
  | '.' :: 'j' :: 's' :: 'o' :: 'n' :: rest => stripAllJson rest
  | c :: cs => c :: stripAllJson cs
  | [] => []

/-- Line 43–44 of the source: `date_str = filename.replace(".json", "")`
followed by `datetime.strptime(date_str, "%Y-%m-%d")`, with the
`ValueError` branch mapped to `none`. -/
def parseFilenameDate (filename : String) : Option Date :=
  strptimeYmd (stripAllJson filename.data)

/-- The per-filename test of the loop body of `filter_files_for_month`:
the filename is kept when its date parses and `file_date.year == year and
file_date.month == month`; a parse failure is skipped (`except ValueError:
continue`). -/
def keepFile (year month : Nat) (filename : String) : Bool :=
  match parseFilenameDate filename with
  | some d => d.year == year && d.month == month
  | none => false

/-- Python's string `<=`: lexicographic comparison of code points. -/
def charListLe : List Char → List Char → Bool
  | [], _ => true
  | _ :: _, [] => false
  | a :: as, b :: bs =>
    if a.toNat < b.toNat then true
    else if b.toNat < a.toNat then false
    else charListLe as bs

/-- Python's `<=` on strings (used by `sorted`). -/
def strLe (a b : String) : Bool := charListLe a.data b.data

/-- The relation `strLe`, as a decidable relation: the order `sorted` sorts by. -/
def strLeProp (a b : String) : Prop := strLe a b = true

instance : DecidableRel strLeProp := fun a b => instDecidableEqBool (strLe a b) true

/-- Embedding of `filter_files_for_month(index, year, month)`: collect
the filenames whose parsed date matches, then `sorted(...)`.  Python's
`sorted` returns the permutation of its input that is ascending for
`strLeProp`; since `strLeProp` is total, transitive and antisymmetric
(proved below), that permutation is unique, and we realise it as an
insertion sort. -/
def filter_files_for_month (index : List String) (year month : Nat) : List String :=
  List.insertionSort strLeProp (index.filter (keepFile year month))

/-! Spec-side definitions, for comparison with the embedded code. -/

/-- Spec-side strip function, following the claim's words: "the filename
with its trailing `.json` suffix removed (the filename itself when there
is no such suffix)".  To be compared with `stripAllJson`, the embedding
of what the source actually does. -/
def stripTrailingJsonSpec (s : String) : String :=
  if s.data.length ≥ 5 ∧ s.data.drop (s.data.length - 5) = ['.', 'j', 's', 'o', 'n'] then
    String.mk (s.data.take (s.data.length - 5))
  else s

/-- The literal filename pattern `YYYY-MM-DD.json` named by the spec:
four digits, dash, two digits, dash, two digits, then `.json`. -/
def matchesYYYYMMDDjson (s : String) : Bool :=
  match s.data with
  | [y1, y2, y3, y4, '-', m1, m2, '-', d1, d2, '.', 'j', 's', 'o', 'n'] =>
      y1.isDigit && y2.isDigit && y3.isDigit && y4.isDigit &&
      m1.isDigit && m2.isDigit && d1.isDigit && d2.isDigit
  | _ => false

/-- The ASCII digit character for `n % 10`. -/
def digitChar10 (n : Nat) : Char := Char.ofNat (48 + n % 10)

/-- The number `n` printed as exactly two decimal digits (zero-padded), for `n < 100`. -/
def pad2 (n : Nat) : List Char := [digitChar10 (n / 10), digitChar10 n]

/-- The number `n` printed as exactly four decimal digits (zero-padded), for `n < 10000`. -/
def pad4 (n : Nat) : List Char :=
  [digitChar10 (n / 1000), digitChar10 (n / 100), digitChar10 (n / 10), digitChar10 n]

/-- The characters `YYYY-MM-DD` of a date. -/
def dateChars (d : Date) : List Char :=
  pad4 d.year ++ '-' :: (pad2 d.month ++ '-' :: pad2 d.day)

/-- The canonical `YYYY-MM-DD.json` filename of a date. -/
def canonicalName (d : Date) : String :=
  String.mk (dateChars d ++ ['.', 'j', 's', 'o', 'n'])

/-! The effect model.

File-system paths are component lists.  `World.files` maps a path to the
content of the regular file there (`none` when no file), `World.dirs`
tells which paths are directories, `World.net` is the HTTP oracle, and
`World.writeOk` tells whether opening/writing a path succeeds. -/

/-- A parsed JSON document, as the program's control flow distinguishes
the cases: an array of strings (the shape `fetch_index` expects), an
object (`len()` works; `for` iterates its keys, which in JSON are
strings), a string (`len()` works; `for` iterates its one-character
substrings), or a number, boolean or null — values on which `len()`
raises `TypeError`. -/
inductive JVal where
  | arr : List String → JVal
  | obj : List String → JVal
  | jstr : String → JVal
  | unsized : String → JVal
deriving DecidableEq, Repr

/-- What `for filename in index` yields on a parsed JSON body: the
elements of an array, the keys of an object, the one-character
substrings of a string.  (`unsized` never reaches the loop: `len()` has
already raised inside `fetch_index`.) -/
def iterNames : JVal → List String
  | .arr xs => xs
  | .obj keys => keys
  | .jstr s => s.data.map (fun c => String.mk [c])
  | .unsized _ => []

/-- Outcome of `requests.get(url)` followed by inspection:
`exn` models a transport-level exception raised by `get` itself;
`resp ok body` models a response whose `raise_for_status()` succeeds iff
`ok`, and whose `.json()` returns `j` when `body = some j` and raises
when `body = none`. -/
inductive NetResult where
  | exn : NetResult
  | resp : Bool → Option JVal → NetResult
deriving DecidableEq, Repr

/-- The ambient state `getdata_apps.py` interacts with. -/
structure World where
  files : List String → Option String
  dirs : List String → Bool
  net : String → NetResult
  writeOk : List String → Bool

/-- The constant `BASE_URL` from the source. -/
def BASE_URL : String := "https://fdroid.gitlab.io/metrics"

/-- The constant `SERVERS` from the source. -/
def SERVERS : List String :=
  ["http01.fdroid.net", "http02.fdroid.net", "http03.fdroid.net", "originserver.f-droid.org"]

/-- The constant `RAW_DATA_DIR` (the `raw` directory next to the script), as a path. -/
def RAW_DATA_DIR : List String := ["raw"]

/-- The constant `SUB_DATA_DIR = RAW_DATA_DIR / "apps"`. -/
def SUB_DATA_DIR : List String := RAW_DATA_DIR ++ ["apps"]

/-- The path `SUB_DATA_DIR / server`, the per-server directory. -/
def serverDir (server : String) : List String := SUB_DATA_DIR ++ [server]

/-- The path `server_dir / filename`, the local target path of a download. -/
def targetPath (server filename : String) : List String := serverDir server ++ [filename]

/-- The URL `f"{BASE_URL}/{server}/index.json"`. -/
def indexUrl (server : String) : String := BASE_URL ++ "/" ++ server ++ "/index.json"

/-- The URL `f"{BASE_URL}/{server}/{filename}"`. -/
def fileUrl (server filename : String) : String := BASE_URL ++ "/" ++ server ++ "/" ++ filename

/-- The nonempty path components prefixes of a path, shortest first. -/
def pathPrefixes : List String → List (List String)
  | [] => []
  | c :: cs => [c] :: (pathPrefixes cs).map (c :: ·)

/-- The world after a successful `mkdir(parents=True, exist_ok=True)`:
the path and all its ancestors become directories. -/
def mkdirWorld (w : World) (p : List String) : World :=
  { w with dirs := fun q => if q ∈ pathPrefixes p then true else w.dirs q }

/-- Embedding of `path.mkdir(parents=True, exist_ok=True)`: raises
(`none`) iff a regular file occupies the path or one of its ancestors;
otherwise marks the path and all its ancestors as directories. -/
def mkdirP (w : World) (p : List String) : Option World :=
  if (pathPrefixes p).any (fun q => (w.files q).isSome) then none
  else some (mkdirWorld w p)

/-- Stand-in for the text `json.dump(v, f, indent=2)` writes; the claims
never inspect the written bytes, only whether a write happened. -/
def dumpJson : JVal → String
  | .arr xs => String.intercalate "\n" xs
  | .obj keys => String.intercalate "\n" keys
  | .jstr s => s
  | .unsized s => s

/-- Outcome of `fetch_index`: `networkError` models a propagated
`requests` exception (transport failure from `get`, or `HTTPError` from
`raise_for_status()`), `parseError` a propagated `.json()` decoding
exception, `typeError` the `TypeError` propagated from `len(index)` on
line 33 when the body parses to a number, boolean or null, and `ok` a
normal return. -/
inductive FetchOutcome where
  | networkError : FetchOutcome
  | parseError : FetchOutcome
  | typeError : FetchOutcome
  | ok : JVal → FetchOutcome
deriving DecidableEq, Repr

/-- Embedding of `fetch_index(server)` (lines 26–34): `get`, then
`raise_for_status()`, then `.json()`, then the eager
`f"Found {len(index)} ..."` log line, then `return index`. -/
def fetch_index (w : World) (server : String) : FetchOutcome :=
  match w.net (indexUrl server) with
  | .exn => .networkError
  | .resp ok body =>
    if ok then
      match body with
      | some j =>
        match j with
        | .unsized _ => .typeError
        | _ => .ok j
      | none => .parseError
    else .networkError

/-- The world after `json.dump(j, f, indent=2)` into the target path of
`(server, filename)`: that file now holds the dumped text. -/
def writeWorld (w : World) (server filename : String) (j : JVal) : World :=
  { w with files := fun p =>
      if p = targetPath server filename then some (dumpJson j) else w.files p }

/-- Embedding of `download_file(server, filename)` (lines 55–79).
Returns `.error ()` when an exception propagates to the caller (only the
`mkdir` on line 59 sits outside the `try`), and otherwise
`.ok (b, w, reqs)` with the returned boolean, the final world, and the
list of URLs requested over HTTP. -/
def download_file (w : World) (server filename : String) : Except Unit (Bool × World × List String) :=
  let url := fileUrl server filename
  match mkdirP w (serverDir server) with
  | none => .error ()
  | some w1 =>
    if (w1.files (targetPath server filename)).isSome ||
        w1.dirs (targetPath server filename) then
      .ok (true, w1, [])
    else
      match w1.net url with
      | .exn => .ok (false, w1, [url])
      | .resp ok body =>
        if ok then
          match body with
          | some j =>
            if w1.writeOk (targetPath server filename) then
              .ok (true, writeWorld w1 server filename j, [url])
            else .ok (false, w1, [url])
          | none => .ok (false, w1, [url])
        else .ok (false, w1, [url])

/-- The per-server download loop of `download_month_data` (lines
111–115): first component is `some (successful, failed)` when the loop
completes and `none` when a `download_file` call raises (the exception is
caught one level up); the rest is the final world and the requested URLs. -/
def downloadLoop (w : World) (server : String) : List String → Option (Nat × Nat) × World × List String
  | [] => (some (0, 0), w, [])
  | f :: fs =>
    match download_file w server f with
    | .error _ => (none, w, [])
    | .ok (b, w1, rs) =>
      match downloadLoop w1 server fs with
      | (some (s1, f1), w2, rs') =>
        (some (if b then s1 + 1 else s1, if b then f1 else f1 + 1), w2, rs ++ rs')
      | (none, w2, rs') => (none, w2, rs ++ rs')

/-- Result of processing one server inside `download_month_data`'s loop:
counts added to the totals, the final world, and the URLs requested. -/
structure ServerRun where
  succ : Nat
  fail : Nat
  world : World
  reqs : List String

/-- One iteration of the `for server in SERVERS` loop (lines 90–127).
The `try/except` catches every exception raised while processing the
server — a failed index fetch — logs it, and continues; in that case
nothing is added to the totals.  On a normal index return the filter
iterates the body (array elements, object keys, or a string's
characters, per `iterNames`) and the matching names are downloaded; if a
`download_file` call raises, the exception is caught here too and the
server's partial counts are discarded. -/
def processServer (w : World) (year month : Nat) (server : String) : ServerRun :=
  match fetch_index w server with
  | .networkError => ⟨0, 0, w, [indexUrl server]⟩
  | .parseError => ⟨0, 0, w, [indexUrl server]⟩
  | .typeError => ⟨0, 0, w, [indexUrl server]⟩
  | .ok j =>
    let month_files := filter_files_for_month (iterNames j) year month
    if month_files.isEmpty then ⟨0, 0, w, [indexUrl server]⟩
    else
      match downloadLoop w server month_files with
      | (some (s1, f1), w1, rs) => ⟨s1, f1, w1, indexUrl server :: rs⟩
      | (none, w1, rs) => ⟨0, 0, w1, indexUrl server :: rs⟩

/-- Accumulated state of the orchestrator run. -/
structure RunResult where
  totalSucc : Nat
  totalFail : Nat
  world : World
  reqs : List String

/-- One fold step of the orchestrator: fold the result of processing
`server` into the accumulated totals, world and request log. -/
def orchStep (year month : Nat) (acc : RunResult) (server : String) : RunResult :=
  let r := processServer acc.world year month server
  ⟨acc.totalSucc + r.succ, acc.totalFail + r.fail, r.world, acc.reqs ++ r.reqs⟩

/-- Embedding of `download_month_data(year, month)` (lines 82–137).
The initial `SUB_DATA_DIR.mkdir` sits outside every `try`, so its
failure propagates (`.error ()`); afterwards each server is processed in
turn and per-server counts are added to the totals. -/
def download_month_data (w : World) (year month : Nat) : Except Unit RunResult :=
  match mkdirP w SUB_DATA_DIR with
  | none => .error ()
  | some w0 => .ok (SERVERS.foldl (orchStep year month) ⟨0, 0, w0, []⟩)

/-- The failure conditions inside `download_file`'s `try` block: a
transport failure, a non-success status, an unparseable JSON body, or a
file-system write error at the target path. -/
def tryFails (w : World) (server filename : String) : Prop :=
  w.net (fileUrl server filename) = .exn ∨
  (∃ b, w.net (fileUrl server filename) = .resp false b) ∨
  w.net (fileUrl server filename) = .resp true none ∨
  (∃ j, w.net (fileUrl server filename) = .resp true (some j) ∧
    w.writeOk (targetPath server filename) = false)

/-! Concrete worlds used to instantiate the theorems. -/

/-- An empty file system, a network on which every request raises. -/
def worldEmpty : World :=
  { files := fun _ => none
    dirs := fun _ => false
    net := fun _ => .exn
    writeOk := fun _ => true }

/-- A world in which the target file of
`download_file "http01.fdroid.net" "2024-01-01.json"` already exists. -/
def worldTargetExists : World :=
  { files := fun p =>
      if p = ["raw", "apps", "http01.fdroid.net", "2024-01-01.json"] then some "cached" else none
    dirs := fun p =>
      (p == ["raw"]) || (p == ["raw", "apps"]) || (p == ["raw", "apps", "http01.fdroid.net"])
    net := fun _ => .exn
    writeOk := fun _ => true }

/-- A world in which the target file of
`download_file "http02.fdroid.net" "x.json"` already exists. -/
def worldTargetExists2 : World :=
  { files := fun p =>
      if p = ["raw", "apps", "http02.fdroid.net", "x.json"] then some "cached" else none
    dirs := fun _ => false
    net := fun _ => .exn
    writeOk := fun _ => true }

/-- A world in which a regular file occupies the per-server directory
path `raw/apps/http01.fdroid.net`. -/
def worldDirOccupied : World :=
  { files := fun p => if p = ["raw", "apps", "http01.fdroid.net"] then some "occupied" else none
    dirs := fun _ => false
    net := fun _ => .exn
    writeOk := fun _ => true }

/-- A world in which every request gets a success status whose body is
not parseable JSON. -/
def worldUnparseableBody : World :=
  { files := fun _ => none
    dirs := fun _ => false
    net := fun _ => .resp true none
    writeOk := fun _ => true }

/-! Helper lemmas. -/

theorem stripAllJson_cons_ne (c : Char) (cs : List Char) (h : c ≠ '.') :
    stripAllJson (c :: cs) = c :: stripAllJson cs := by
  rw [stripAllJson.eq_def]
  split
  · rename_i rest heq
    rw [List.cons.injEq] at heq
    exact absurd heq.1 h
  · rename_i c2 cs2 hfail heq
    rw [List.cons.injEq] at heq
    rw [heq.1, heq.2]
  · rename_i heq
    simp at heq

theorem stripAllJson_append_json (l : List Char) (h : ∀ c ∈ l, c ≠ '.') :
    stripAllJson (l ++ ['.', 'j', 's', 'o', 'n']) = l := by
  induction l with
  | nil => rfl
  | cons c cs ih =>
    rw [List.cons_append, stripAllJson_cons_ne c _ (h c (List.mem_cons_self c cs))]
    rw [ih (fun x hx => h x (List.mem_cons_of_mem c hx))]

theorem charListLe_total (xs ys : List Char) :
    charListLe xs ys = true ∨ charListLe ys xs = true := by
  induction xs generalizing ys with
  | nil => left; rfl
  | cons a as ih =>
    cases ys with
    | nil => right; rfl
    | cons b bs =>
      rw [charListLe, charListLe]
      rcases Nat.lt_trichotomy a.toNat b.toNat with h | h | h
      · left
        rw [if_pos h]
      · rw [if_neg (by omega), if_neg (by omega), if_neg (by omega), if_neg (by omega)]
        exact ih bs
      · right
        rw [if_pos h]

theorem charListLe_trans (xs ys zs : List Char) (h1 : charListLe xs ys = true)
    (h2 : charListLe ys zs = true) : charListLe xs zs = true := by
  induction xs generalizing ys zs with
  | nil => rfl
  | cons a as ih =>
    cases ys with
    | nil => exact absurd h1 (by rw [charListLe]; simp)
    | cons b bs =>
      cases zs with
      | nil => exact absurd h2 (by rw [charListLe]; simp)
      | cons c cs =>
        rw [charListLe] at h1 h2 ⊢
        by_cases hab : a.toNat < b.toNat
        · by_cases hbc : b.toNat < c.toNat
          · rw [if_pos (by omega)]
          · rw [if_neg hbc] at h2
            by_cases hcb : c.toNat < b.toNat
            · rw [if_pos hcb] at h2
              exact absurd h2 (by simp)
            · rw [if_pos (by omega)]
        · rw [if_neg hab] at h1
          by_cases hba : b.toNat < a.toNat
          · rw [if_pos hba] at h1
            exact absurd h1 (by simp)
          · rw [if_neg hba] at h1
            by_cases hbc : b.toNat < c.toNat
            · rw [if_pos (by omega)]
            · rw [if_neg hbc] at h2
              by_cases hcb : c.toNat < b.toNat
              · rw [if_pos hcb] at h2
                exact absurd h2 (by simp)
              · rw [if_neg hcb] at h2
                rw [if_neg (by omega), if_neg (by omega)]
                exact ih bs cs h1 h2

instance : IsTotal String strLeProp :=
  ⟨fun a b => charListLe_total a.data b.data⟩

instance : IsTrans String strLeProp :=
  ⟨fun a b c => charListLe_trans a.data b.data c.data⟩

theorem digitChar10_spec (n : Nat) :
    (digitChar10 n).isDigit = true ∧ digitVal (digitChar10 n) = n % 10 ∧ digitChar10 n ≠ '.' := by
  have hb : ∀ r, r < 10 → (Char.ofNat (48 + r)).isDigit = true ∧
      digitVal (Char.ofNat (48 + r)) = r ∧ Char.ofNat (48 + r) ≠ '.' := by decide
  exact hb (n % 10) (Nat.mod_lt n (by omega))

theorem pad2_digits (n : Nat) : ∀ c ∈ pad2 n, c.isDigit = true := by
  intro c hc
  rw [pad2, List.mem_cons, List.mem_singleton] at hc
  rcases hc with h | h <;> exact h ▸ (digitChar10_spec _).1

theorem pad4_digits (n : Nat) : ∀ c ∈ pad4 n, c.isDigit = true := by
  intro c hc
  rw [pad4, List.mem_cons, List.mem_cons, List.mem_cons, List.mem_singleton] at hc
  rcases hc with h | h | h | h <;> exact h ▸ (digitChar10_spec _).1

theorem natOfDigits_pad2 (n : Nat) (h : n < 100) : natOfDigits (pad2 n) = n := by
  rw [pad2, natOfDigits, List.foldl, List.foldl, List.foldl,
    (digitChar10_spec (n / 10)).2.1, (digitChar10_spec n).2.1]
  omega

theorem natOfDigits_pad4 (n : Nat) (h : n < 10000) : natOfDigits (pad4 n) = n := by
  rw [pad4, natOfDigits, List.foldl, List.foldl, List.foldl, List.foldl, List.foldl,
    (digitChar10_spec (n / 1000)).2.1, (digitChar10_spec (n / 100)).2.1,
    (digitChar10_spec (n / 10)).2.1, (digitChar10_spec n).2.1]
  omega

theorem span_digits_append (ds rest : List Char) (hds : ∀ c ∈ ds, c.isDigit = true)
    (hrest : ∀ c cs, rest = c :: cs → c.isDigit = false) :
    (ds ++ rest).span Char.isDigit = (ds, rest) := by
  rw [List.span_eq_take_drop]
  induction ds with
  | nil =>
    cases rest with
    | nil => rfl
    | cons c cs =>
      rw [List.nil_append,
        List.takeWhile_cons_of_neg (by rw [hrest c cs rfl]; simp),
        List.dropWhile_cons_of_neg (by rw [hrest c cs rfl]; simp)]
  | cons d ds ih =>
    rw [List.cons_append,
      List.takeWhile_cons_of_pos (by rw [hds d (List.mem_cons_self d ds)]),
      List.dropWhile_cons_of_pos (by rw [hds d (List.mem_cons_self d ds)])]
    have := ih (fun c hc => hds c (List.mem_cons_of_mem d hc))
    rw [Prod.mk.injEq] at this ⊢
    exact ⟨by rw [this.1], this.2⟩

theorem pad2_length (n : Nat) : (pad2 n).length = 2 := rfl

theorem pad4_length (n : Nat) : (pad4 n).length = 4 := rfl

theorem pad2_no_dot (n : Nat) : ∀ c ∈ pad2 n, c ≠ '.' := by
  intro c hc
  rw [pad2, List.mem_cons, List.mem_singleton] at hc
  rcases hc with h | h <;> exact h ▸ (digitChar10_spec _).2.2

theorem pad4_no_dot (n : Nat) : ∀ c ∈ pad4 n, c ≠ '.' := by
  intro c hc
  rw [pad4, List.mem_cons, List.mem_cons, List.mem_cons, List.mem_singleton] at hc
  rcases hc with h | h | h | h <;> exact h ▸ (digitChar10_spec _).2.2

theorem dateChars_no_dot (d : Date) : ∀ c ∈ dateChars d, c ≠ '.' := by
  intro c hc
  rw [dateChars, List.mem_append, List.mem_cons, List.mem_append, List.mem_cons] at hc
  rcases hc with h | h | h | h | h
  · exact pad4_no_dot _ c h
  · rw [h]; decide
  · exact pad2_no_dot _ c h
  · rw [h]; decide
  · exact pad2_no_dot _ c h

theorem daysInMonth_le (y m : Nat) : daysInMonth y m ≤ 31 := by
  rw [daysInMonth]
  split
  · split <;> omega
  · split <;> omega

theorem strptimeYmd_dateChars (d : Date) (h : validYMD d.year d.month d.day = true) :
    strptimeYmd (dateChars d) = some d := by
  have h' := h
  rw [validYMD] at h'
  simp only [Bool.and_eq_true, decide_eq_true_eq] at h'
  obtain ⟨⟨⟨⟨⟨hy1, hy2⟩, hm1⟩, hm2⟩, hd1⟩, hd2⟩ := h'
  have hday31 : d.day ≤ 31 := le_trans hd2 (daysInMonth_le d.year d.month)
  have hspan1 : List.span Char.isDigit (dateChars d) =
      (pad4 d.year, '-' :: (pad2 d.month ++ '-' :: pad2 d.day)) := by
    rw [dateChars]
    exact span_digits_append _ _ (pad4_digits _)
      (by intro c cs hc; rw [List.cons.injEq] at hc; rw [← hc.1]; decide)
  have hspan2 : List.span Char.isDigit (pad2 d.month ++ '-' :: pad2 d.day) =
      (pad2 d.month, '-' :: pad2 d.day) :=
    span_digits_append _ _ (pad2_digits _)
      (by intro c cs hc; rw [List.cons.injEq] at hc; rw [← hc.1]; decide)
  have hspan3 : List.span Char.isDigit (pad2 d.day) = (pad2 d.day, []) := by
    have := span_digits_append (pad2 d.day) [] (pad2_digits _)
      (by intro c cs hc; exact absurd hc (by simp))
    simpa using this
  rw [List.span_eq_take_drop, Prod.mk.injEq] at hspan1 hspan2 hspan3
  have hy : natOfDigits (pad4 d.year) = d.year := natOfDigits_pad4 _ (by omega)
  have hm : natOfDigits (pad2 d.month) = d.month := natOfDigits_pad2 _ (by omega)
  have hd : natOfDigits (pad2 d.day) = d.day := natOfDigits_pad2 _ (by omega)
  simp [strptimeYmd, List.span_eq_take_drop, hspan1.1, hspan1.2, hspan2.1, hspan2.2,
    hspan3.1, hspan3.2, pad4_length, pad2_length, hy, hm, hd, h, pad2_digits d.day]

theorem parseFilenameDate_canonical (d : Date) (h : validYMD d.year d.month d.day = true) :
    parseFilenameDate (canonicalName d) = some d := by
  rw [parseFilenameDate, canonicalName]
  rw [show (String.mk (dateChars d ++ ['.', 'j', 's', 'o', 'n'])).data =
    dateChars d ++ ['.', 'j', 's', 'o', 'n'] from rfl]
  rw [stripAllJson_append_json _ (dateChars_no_dot d)]
  exact strptimeYmd_dateChars d h

/-! Claim theorems for the month filter. -/

/-- Claim C1: for every index list and target year/month, a valid
filename of the form `YYYY-MM-DD.json` is included in the result of
`filter_files_for_month` iff it occurs in the input and the date parsed
from it has exactly that year and that month; and the returned list is
sorted lexicographically ascending (code-point order `strLeProp`). -/
theorem month_filter_valid_filename_iff_and_sorted (index : List String) (y m : Nat) (d : Date)
    (hv : validYMD d.year d.month d.day = true) :
    (canonicalName d ∈ filter_files_for_month index y m ↔
      canonicalName d ∈ index ∧ d.year = y ∧ d.month = m) ∧
    (filter_files_for_month index y m).Sorted strLeProp := by
  refine ⟨?_, List.sorted_insertionSort _ _⟩
  rw [filter_files_for_month, List.mem_insertionSort, List.mem_filter]
  rw [keepFile, parseFilenameDate_canonical d hv]
  simp

/-- Witness for C1 at a concrete index, year, month and date. -/
theorem month_filter_valid_filename_iff_and_sorted_witness :
    validYMD 2024 1 15 = true ∧
    ((canonicalName ⟨2024, 1, 15⟩ ∈
        filter_files_for_month ["2024-01-15.json", "bad.json"] 2024 1 ↔
      canonicalName ⟨2024, 1, 15⟩ ∈ ["2024-01-15.json", "bad.json"] ∧
        (2024 : Nat) = 2024 ∧ (1 : Nat) = 1) ∧
      (filter_files_for_month ["2024-01-15.json", "bad.json"] 2024 1).Sorted strLeProp) :=
  ⟨by decide,
   month_filter_valid_filename_iff_and_sorted ["2024-01-15.json", "bad.json"] 2024 1
     ⟨2024, 1, 15⟩ (by decide)⟩

/-- Counterexample to claim C2 as stated: `"2024-1-15.json"` does not
match the pattern `YYYY-MM-DD.json` (its month has a single digit), yet
`filter_files_for_month` includes it for year 2024, month 1, because
`strptime("%Y-%m-%d")` accepts one-digit month and day fields. -/
theorem month_filter_includes_nonpattern_filename :
    matchesYYYYMMDDjson "2024-1-15.json" = false ∧
    "2024-1-15.json" ∈ filter_files_for_month ["2024-1-15.json"] 2024 1 := by
  constructor
  · rfl
  · decide

/-- Claim C2 (amended): for every filename whose text — after removing
every occurrence of `.json` — fails to parse as a calendar date,
`filter_files_for_month` excludes it (and, being a total function,
raises nothing). -/
theorem month_filter_excludes_unparseable (index : List String) (y m : Nat) (fn : String)
    (h : parseFilenameDate fn = none) : fn ∉ filter_files_for_month index y m := by
  rw [filter_files_for_month, List.mem_insertionSort, List.mem_filter]
  rw [keepFile, h]
  simp

/-- Witness for the amended C2 at a concrete filename. -/
theorem month_filter_excludes_unparseable_witness :
    parseFilenameDate "notadate.json" = none ∧
    "notadate.json" ∉ filter_files_for_month ["notadate.json"] 2024 1 :=
  ⟨rfl, month_filter_excludes_unparseable ["notadate.json"] 2024 1 "notadate.json" rfl⟩

/-- Counterexample to claim C3 as stated: for `"2024-01.json-15"`, the
string with the trailing `.json` suffix removed (here: the filename
itself) does not parse as a date, so under the claim the filename would
be skipped — but the code removes the embedded `.json` occurrence,
obtains `"2024-01-15"`, and includes the filename. -/
theorem month_filter_parses_replace_all_not_suffix :
    strptimeYmd (stripTrailingJsonSpec "2024-01.json-15").data = none ∧
    String.mk (stripAllJson ("2024-01.json-15").data) ≠
      stripTrailingJsonSpec "2024-01.json-15" ∧
    "2024-01.json-15" ∈ filter_files_for_month ["2024-01.json-15"] 2024 1 := by
  refine ⟨by decide, by decide, by decide⟩

/-- Claim C3 (amended): the date string `filter_files_for_month`
attempts to parse for a filename is the filename with every occurrence
of `.json` removed; a filename is included exactly when it occurs in the
input and that string parses to a date with the target year and month,
so parse failures are skipped without error. -/
theorem month_filter_membership_via_strip_all (index : List String) (y m : Nat) (fn : String) :
    fn ∈ filter_files_for_month index y m ↔
      fn ∈ index ∧ ∃ d : Date, strptimeYmd (stripAllJson fn.data) = some d ∧
        d.year = y ∧ d.month = m := by
  rw [filter_files_for_month, List.mem_insertionSort, List.mem_filter]
  constructor
  · rintro ⟨hin, hkeep⟩
    refine ⟨hin, ?_⟩
    rw [keepFile, parseFilenameDate] at hkeep
    cases hs : strptimeYmd (stripAllJson fn.data) with
    | none => rw [hs] at hkeep; simp at hkeep
    | some d0 =>
      rw [hs] at hkeep
      simp only [Bool.and_eq_true, beq_iff_eq] at hkeep
      exact ⟨d0, rfl, hkeep.1, hkeep.2⟩
  · rintro ⟨hin, d0, hs, hy0, hm0⟩
    refine ⟨hin, ?_⟩
    rw [keepFile, parseFilenameDate, hs]
    simp [hy0, hm0]

/-- Witness for the amended C3 at a concrete filename. -/
theorem month_filter_membership_via_strip_all_witness :
    "2024-01-15.json" ∈ filter_files_for_month ["2024-01-15.json"] 2024 1 :=
  (month_filter_membership_via_strip_all ["2024-01-15.json"] 2024 1 "2024-01-15.json").mpr
    ⟨by decide, ⟨2024, 1, 15⟩, by decide, rfl, rfl⟩

/-- Claim C4: the concrete scenario from the spec. -/
theorem month_filter_scenario_2024_01 :
    filter_files_for_month
      ["2024-01-01.json", "2024-02-01.json", "2024-01-15.json", "bad.json"] 2024 1 =
      ["2024-01-01.json", "2024-01-15.json"] := by decide

/-- Claim C9: `filter_files_for_month` is selective (every output
element comes from the input) and idempotent (reapplying it to its own
output with the same year and month returns the same list). -/
theorem month_filter_selective_idempotent (index : List String) (y m : Nat) :
    (∀ fn ∈ filter_files_for_month index y m, fn ∈ index) ∧
    filter_files_for_month (filter_files_for_month index y m) y m =
      filter_files_for_month index y m := by
  constructor
  · intro fn hfn
    rw [filter_files_for_month, List.mem_insertionSort, List.mem_filter] at hfn
    exact hfn.1
  · have hsorted : (filter_files_for_month index y m).Sorted strLeProp :=
      List.sorted_insertionSort _ _
    have hfilter : (filter_files_for_month index y m).filter (keepFile y m) =
        filter_files_for_month index y m := by
      rw [List.filter_eq_self]
      intro a ha
      rw [filter_files_for_month, List.mem_insertionSort, List.mem_filter] at ha
      exact ha.2
    conv_lhs => rw [filter_files_for_month]
    rw [hfilter, hsorted.insertionSort_eq]

/-- Witness for C9 at a concrete index. -/
theorem month_filter_selective_idempotent_witness :
    "2024-01-02.json" ∈ (["x.json", "2024-01-02.json"] : List String) ∧
    filter_files_for_month (filter_files_for_month ["x.json", "2024-01-02.json"] 2024 1) 2024 1 =
      filter_files_for_month ["x.json", "2024-01-02.json"] 2024 1 :=
  ⟨(month_filter_selective_idempotent ["x.json", "2024-01-02.json"] 2024 1).1
      "2024-01-02.json" (by decide),
   (month_filter_selective_idempotent ["x.json", "2024-01-02.json"] 2024 1).2⟩

/-! Helper lemmas for the effectful functions. -/

theorem mkdirP_of_clean (w : World) (p : List String)
    (h : ∀ q ∈ pathPrefixes p, w.files q = none) :
    mkdirP w p = some (mkdirWorld w p) := by
  rw [mkdirP, if_neg]
  intro hc
  rw [List.any_eq_true] at hc
  obtain ⟨q, hq, hs⟩ := hc
  rw [h q hq] at hs
  simp at hs

theorem self_mem_pathPrefixes (p : List String) (h : p ≠ []) : p ∈ pathPrefixes p := by
  induction p with
  | nil => exact absurd rfl h
  | cons c cs ih =>
    rw [pathPrefixes]
    cases cs with
    | nil => exact List.mem_cons_self _ _
    | cons d ds =>
      exact List.mem_cons_of_mem _ (List.mem_map_of_mem _ (ih (by simp)))

theorem targetPath_not_mem (server filename : String) :
    targetPath server filename ∉ pathPrefixes (serverDir server) := by
  intro h
  rw [show pathPrefixes (serverDir server) =
    [["raw"], ["raw", "apps"], ["raw", "apps", server]] from rfl] at h
  rw [show targetPath server filename = ["raw", "apps", server, filename] from rfl] at h
  simp at h

theorem download_file_eq_skip (w : World) (server filename content : String)
    (hclean : ∀ q ∈ pathPrefixes (serverDir server), w.files q = none)
    (hex : w.files (targetPath server filename) = some content) :
    download_file w server filename = .ok (true, mkdirWorld w (serverDir server), []) := by
  rw [download_file, mkdirP_of_clean w _ hclean]
  dsimp only [mkdirWorld]
  rw [hex]
  rfl

theorem download_file_eq_skip_dir (w : World) (server filename : String)
    (hclean : ∀ q ∈ pathPrefixes (serverDir server), w.files q = none)
    (hdir : w.dirs (targetPath server filename) = true) :
    download_file w server filename = .ok (true, mkdirWorld w (serverDir server), []) := by
  rw [download_file, mkdirP_of_clean w _ hclean]
  dsimp only [mkdirWorld]
  rw [if_neg (targetPath_not_mem server filename), hdir, Bool.or_true]
  rfl

theorem download_file_eq_exn (w : World) (server filename : String)
    (hclean : ∀ q ∈ pathPrefixes (serverDir server), w.files q = none)
    (hnone : w.files (targetPath server filename) = none)
    (hdir : w.dirs (targetPath server filename) = false)
    (hnet : w.net (fileUrl server filename) = .exn) :
    download_file w server filename =
      .ok (false, mkdirWorld w (serverDir server), [fileUrl server filename]) := by
  rw [download_file, mkdirP_of_clean w _ hclean]
  dsimp only [mkdirWorld]
  rw [hnone, if_neg (targetPath_not_mem server filename), hdir, hnet]
  rfl

theorem download_file_eq_badstatus (w : World) (server filename : String) (body : Option JVal)
    (hclean : ∀ q ∈ pathPrefixes (serverDir server), w.files q = none)
    (hnone : w.files (targetPath server filename) = none)
    (hdir : w.dirs (targetPath server filename) = false)
    (hnet : w.net (fileUrl server filename) = .resp false body) :
    download_file w server filename =
      .ok (false, mkdirWorld w (serverDir server), [fileUrl server filename]) := by
  rw [download_file, mkdirP_of_clean w _ hclean]
  dsimp only [mkdirWorld]
  rw [hnone, if_neg (targetPath_not_mem server filename), hdir, hnet]
  rfl

theorem download_file_eq_nojson (w : World) (server filename : String)
    (hclean : ∀ q ∈ pathPrefixes (serverDir server), w.files q = none)
    (hnone : w.files (targetPath server filename) = none)
    (hdir : w.dirs (targetPath server filename) = false)
    (hnet : w.net (fileUrl server filename) = .resp true none) :
    download_file w server filename =
      .ok (false, mkdirWorld w (serverDir server), [fileUrl server filename]) := by
  rw [download_file, mkdirP_of_clean w _ hclean]
  dsimp only [mkdirWorld]
  rw [hnone, if_neg (targetPath_not_mem server filename), hdir, hnet]
  rfl

theorem download_file_eq_nowrite (w : World) (server filename : String) (j : JVal)
    (hclean : ∀ q ∈ pathPrefixes (serverDir server), w.files q = none)
    (hnone : w.files (targetPath server filename) = none)
    (hdir : w.dirs (targetPath server filename) = false)
    (hnet : w.net (fileUrl server filename) = .resp true (some j))
    (hwr : w.writeOk (targetPath server filename) = false) :
    download_file w server filename =
      .ok (false, mkdirWorld w (serverDir server), [fileUrl server filename]) := by
  rw [download_file, mkdirP_of_clean w _ hclean]
  dsimp only [mkdirWorld]
  rw [hnone, if_neg (targetPath_not_mem server filename), hdir, hnet, hwr]
  rfl

theorem download_file_eq_write (w : World) (server filename : String) (j : JVal)
    (hclean : ∀ q ∈ pathPrefixes (serverDir server), w.files q = none)
    (hnone : w.files (targetPath server filename) = none)
    (hdir : w.dirs (targetPath server filename) = false)
    (hnet : w.net (fileUrl server filename) = .resp true (some j))
    (hwr : w.writeOk (targetPath server filename) = true) :
    download_file w server filename =
      .ok (true, writeWorld (mkdirWorld w (serverDir server)) server filename j,
        [fileUrl server filename]) := by
  rw [download_file, mkdirP_of_clean w _ hclean]
  dsimp only [mkdirWorld]
  rw [hnone, if_neg (targetPath_not_mem server filename), hdir, hnet, hwr]
  rfl

/-! Claim theorems for the effectful functions. -/

/-- Claim C5: when the computed local path already holds a file (and, as
on a real file system, no regular file occupies the server directory or
an ancestor), `download_file` returns `True`, issues no HTTP request,
and leaves every file — in particular the existing one — unchanged. -/
theorem download_file_existing_skips (w : World) (server filename content : String)
    (hclean : ∀ q ∈ pathPrefixes (serverDir server), w.files q = none)
    (hex : w.files (targetPath server filename) = some content) :
    ∃ w', download_file w server filename = .ok (true, w', []) ∧
      ∀ p, w'.files p = w.files p :=
  ⟨mkdirWorld w (serverDir server),
   download_file_eq_skip w server filename content hclean hex, fun _ => rfl⟩

/-- Witness for C5 at a concrete world with a pre-existing target file. -/
theorem download_file_existing_skips_witness :
    worldTargetExists.files (targetPath "http01.fdroid.net" "2024-01-01.json") = some "cached" ∧
    ∃ w', download_file worldTargetExists "http01.fdroid.net" "2024-01-01.json" =
        .ok (true, w', []) ∧
      ∀ p, w'.files p = worldTargetExists.files p :=
  ⟨rfl, download_file_existing_skips worldTargetExists "http01.fdroid.net" "2024-01-01.json"
    "cached" (by decide) rfl⟩

/-- Claim C10: `download_file` runs `mkdir(parents=True, exist_ok=True)`
on the per-server directory before checking whether the target exists,
so even the skip path for an already-downloaded file marks the server
directory and all its ancestors as directories. -/
theorem download_file_skip_creates_server_dir (w : World) (server filename content : String)
    (hclean : ∀ q ∈ pathPrefixes (serverDir server), w.files q = none)
    (hex : w.files (targetPath server filename) = some content) :
    ∃ w', download_file w server filename = .ok (true, w', []) ∧
      w'.dirs (serverDir server) = true ∧
      ∀ q ∈ pathPrefixes (serverDir server), w'.dirs q = true := by
  refine ⟨mkdirWorld w (serverDir server),
    download_file_eq_skip w server filename content hclean hex, ?_, ?_⟩
  · show (if serverDir server ∈ pathPrefixes (serverDir server) then true
      else w.dirs (serverDir server)) = true
    rw [if_pos (self_mem_pathPrefixes _ (by rw [serverDir]; simp))]
  · intro q hq
    show (if q ∈ pathPrefixes (serverDir server) then true else w.dirs q) = true
    rw [if_pos hq]

/-- Witness for C10 at a concrete world with a pre-existing target file. -/
theorem download_file_skip_creates_server_dir_witness :
    ∃ w', download_file worldTargetExists2 "http02.fdroid.net" "x.json" = .ok (true, w', []) ∧
      w'.dirs (serverDir "http02.fdroid.net") = true ∧
      ∀ q ∈ pathPrefixes (serverDir "http02.fdroid.net"), w'.dirs q = true := by
  have h := download_file_skip_creates_server_dir worldTargetExists2 "http02.fdroid.net"
    "x.json" "cached" (by decide) rfl
  exact h

/-- Counterexample to claim C6 as stated: `download_file` does propagate
an exception when the `mkdir` on line 59 — which sits outside the
`try` block — fails because a regular file occupies the per-server
directory path. -/
theorem download_file_propagates_mkdir_failure :
    download_file worldDirOccupied "http01.fdroid.net" "2024-01-01.json" = .error () := rfl

/-- Claim C6 (amended): whenever the per-server directory can be
created, `download_file` returns a boolean rather than raising; when
nothing occupies the target path (no file and no directory — otherwise
line 63's `filepath.exists()` takes the skip path and returns `True`),
each failure inside the `try` block — transport failure, bad HTTP
status, unparseable JSON body, or file-system write failure — yields
`False`; only a directory-creation failure before the `try` propagates. -/
theorem download_file_catches_try_failures (w : World) (server filename : String)
    (hclean : ∀ q ∈ pathPrefixes (serverDir server), w.files q = none) :
    (∃ r, download_file w server filename = .ok r) ∧
    (w.files (targetPath server filename) = none →
      w.dirs (targetPath server filename) = false →
      tryFails w server filename →
      ∃ w', download_file w server filename = .ok (false, w', [fileUrl server filename])) := by
  constructor
  · cases hf : w.files (targetPath server filename) with
    | some c => exact ⟨_, download_file_eq_skip w server filename c hclean hf⟩
    | none =>
      cases hd : w.dirs (targetPath server filename) with
      | true => exact ⟨_, download_file_eq_skip_dir w server filename hclean hd⟩
      | false =>
        cases hnet : w.net (fileUrl server filename) with
        | exn => exact ⟨_, download_file_eq_exn w server filename hclean hf hd hnet⟩
        | resp ok body =>
          cases ok with
          | false =>
            exact ⟨_, download_file_eq_badstatus w server filename body hclean hf hd hnet⟩
          | true =>
            cases body with
            | none => exact ⟨_, download_file_eq_nojson w server filename hclean hf hd hnet⟩
            | some j =>
              cases hwr : w.writeOk (targetPath server filename) with
              | false =>
                exact ⟨_, download_file_eq_nowrite w server filename j hclean hf hd hnet hwr⟩
              | true =>
                exact ⟨_, download_file_eq_write w server filename j hclean hf hd hnet hwr⟩
  · intro hf hd hfail
    rcases hfail with hnet | ⟨b, hnet⟩ | hnet | ⟨j, hnet, hwr⟩
    · exact ⟨_, download_file_eq_exn w server filename hclean hf hd hnet⟩
    · exact ⟨_, download_file_eq_badstatus w server filename b hclean hf hd hnet⟩
    · exact ⟨_, download_file_eq_nojson w server filename hclean hf hd hnet⟩
    · exact ⟨_, download_file_eq_nowrite w server filename j hclean hf hd hnet hwr⟩

/-- Witness for the amended C6 at a concrete world whose network raises. -/
theorem download_file_catches_try_failures_witness :
    (∃ r, download_file worldEmpty "http01.fdroid.net" "2024-01-01.json" = .ok r) ∧
    (∃ w', download_file worldEmpty "http01.fdroid.net" "2024-01-01.json" =
        .ok (false, w', [fileUrl "http01.fdroid.net" "2024-01-01.json"])) :=
  have h := download_file_catches_try_failures worldEmpty "http01.fdroid.net"
    "2024-01-01.json" (by decide)
  ⟨h.1, h.2 rfl rfl (Or.inl rfl)⟩

/-- Counterexample to claim C8 as stated: on a success status whose body
is not parseable JSON, `fetch_index` neither raises a `NetworkError` nor
returns a parsed array — it propagates the `.json()` decoding error. -/
theorem fetch_index_success_status_no_array :
    worldUnparseableBody.net (indexUrl "http01.fdroid.net") = .resp true none ∧
    fetch_index worldUnparseableBody "http01.fdroid.net" = .parseError := ⟨rfl, rfl⟩

/-- Claim C8 (amended): `fetch_index` raises a `NetworkError` exactly
when the transport fails or the HTTP response status is non-success; on
a success status it returns the parsed JSON value when that value has a
length (array, object, string), propagates a decoding (`ParseError`)
exception when the body is not parseable JSON, and propagates the
`TypeError` from line 33's `len(index)` when the body parses to a
number, boolean or null. -/
theorem fetch_index_network_error_iff (w : World) (server : String) :
    (fetch_index w server = .networkError ↔
      w.net (indexUrl server) = .exn ∨ ∃ b, w.net (indexUrl server) = .resp false b) ∧
    (∀ xs, w.net (indexUrl server) = .resp true (some (.arr xs)) →
      fetch_index w server = .ok (.arr xs)) ∧
    (∀ keys, w.net (indexUrl server) = .resp true (some (.obj keys)) →
      fetch_index w server = .ok (.obj keys)) ∧
    (∀ s, w.net (indexUrl server) = .resp true (some (.jstr s)) →
      fetch_index w server = .ok (.jstr s)) ∧
    (∀ s, w.net (indexUrl server) = .resp true (some (.unsized s)) →
      fetch_index w server = .typeError) ∧
    (w.net (indexUrl server) = .resp true none → fetch_index w server = .parseError) := by
  refine ⟨⟨?_, ?_⟩, ?_, ?_, ?_, ?_, ?_⟩
  · intro h
    cases hnet : w.net (indexUrl server) with
    | exn => exact Or.inl rfl
    | resp ok body =>
      cases ok with
      | true =>
        rw [fetch_index, hnet] at h
        cases body with
        | none => simp at h
        | some j => cases j <;> simp at h
      | false => exact Or.inr ⟨body, rfl⟩
  · rintro (hnet | ⟨b, hnet⟩)
    · rw [fetch_index, hnet]
    · rw [fetch_index, hnet]
      rfl
  · intro xs hnet
    rw [fetch_index, hnet]
    rfl
  · intro keys hnet
    rw [fetch_index, hnet]
    rfl
  · intro s hnet
    rw [fetch_index, hnet]
    rfl
  · intro s hnet
    rw [fetch_index, hnet]
    rfl
  · intro hnet
    rw [fetch_index, hnet]
    rfl

/-- Witness for the amended C8 at a concrete world whose transport raises. -/
theorem fetch_index_network_error_iff_witness :
    fetch_index worldEmpty "http01.fdroid.net" = .networkError :=
  (fetch_index_network_error_iff worldEmpty "http01.fdroid.net").1.mpr (Or.inl rfl)

theorem processServer_mem_reqs (w : World) (y m : Nat) (server : String) :
    indexUrl server ∈ (processServer w y m server).reqs := by
  rw [processServer]
  cases h : fetch_index w server with
  | networkError => simp
  | parseError => simp
  | typeError => simp
  | ok j =>
    dsimp only
    split
    · simp
    · split <;> simp

theorem reqs_subset_foldl (y m : Nat) (servers : List String) :
    ∀ acc : RunResult, acc.reqs ⊆ (servers.foldl (orchStep y m) acc).reqs := by
  induction servers with
  | nil => exact fun acc x hx => hx
  | cons s ss ih =>
    intro acc x hx
    rw [List.foldl_cons]
    apply ih (orchStep y m acc s)
    rw [orchStep]
    exact List.mem_append_left _ hx

theorem indexUrl_mem_foldl (y m : Nat) (servers : List String) :
    ∀ (acc : RunResult) (s : String), s ∈ servers →
      indexUrl s ∈ (servers.foldl (orchStep y m) acc).reqs := by
  induction servers with
  | nil => exact fun acc s hs => absurd hs (List.not_mem_nil s)
  | cons t ts ih =>
    intro acc s hs
    rw [List.foldl_cons]
    rcases List.mem_cons.mp hs with h | h
    · subst h
      apply reqs_subset_foldl y m ts (orchStep y m acc s)
      rw [orchStep]
      exact List.mem_append_right _ (processServer_mem_reqs acc.world y m s)
    · exact ih (orchStep y m acc t) s h

/-- Claim C7: once the initial data-directory creation succeeds,
`download_month_data` completes without propagating any exception —
whatever the network, file system or per-server failures — and every
server in the fixed list is still processed: the index of each of the
four servers is requested. -/
theorem download_month_data_isolates_failures (w : World) (y m : Nat)
    (h : (mkdirP w SUB_DATA_DIR).isSome = true) :
    ∃ res, download_month_data w y m = .ok res ∧
      ∀ s ∈ SERVERS, indexUrl s ∈ res.reqs := by
  obtain ⟨w0, hw0⟩ := Option.isSome_iff_exists.mp h
  refine ⟨SERVERS.foldl (orchStep y m) ⟨0, 0, w0, []⟩, ?_, ?_⟩
  · rw [download_month_data, hw0]
  · intro s hs
    exact indexUrl_mem_foldl y m SERVERS ⟨0, 0, w0, []⟩ s hs

/-- Witness for C7 at a concrete world on which every request raises:
all four indexes are still fetched and the run completes. -/
theorem download_month_data_isolates_failures_witness :
    ∃ res, download_month_data worldEmpty 2024 1 = .ok res ∧
      ∀ s ∈ SERVERS, indexUrl s ∈ res.reqs :=
  download_month_data_isolates_failures worldEmpty 2024 1 rfl

end FdroidMetrics
